import Mathlib

/-! cppTimePointNotes: `std::chrono::system_clock::time_point` and `std::timespec`

A shallow embedding of `src/main.cpp` (compiled with `g++ -std=c++20` for a 64-bit
Linux target: `system_clock::duration` is `std::chrono::nanoseconds` over a signed 64-bit
count, `std::time_t` and `long` are signed 64-bit integers).

Machine integers are mathematical integers; every arithmetic step that the machine performs
in 64 bits is followed by `wrap64`, the reduction to the two's-complement range.
-/

namespace TimePointNotes

/-! ## Machine integers -/

/-- Smallest signed 64-bit value. -/
def INT64_MIN : Int := -9223372036854775808

/-- Largest signed 64-bit value. -/
def INT64_MAX : Int := 9223372036854775807

/-- Smallest value of `int`. -/
def INT_MIN : Int := -2147483648

/-- Largest value of `int`. -/
def INT_MAX : Int := 2147483647

/-- The value is representable as a signed 64-bit integer. -/
def inInt64 (z : Int) : Prop := INT64_MIN ≤ z ∧ z ≤ INT64_MAX

instance (z : Int) : Decidable (inInt64 z) := by
  unfold inInt64; exact inferInstance

/-- Reduction of an exact result to the signed 64-bit range (two's complement). -/
def wrap64 (z : Int) : Int :=
  (z + 9223372036854775808) % 18446744073709551616 - 9223372036854775808

/-- Reduction of an exact result to the range of `int` (32 bits, two's complement). -/
def wrap32 (z : Int) : Int := (z + 2147483648) % 4294967296 - 2147483648

/-! ## The two representations of an instant -/

/-- A `std::chrono::system_clock::time_point`: nanoseconds since the epoch. -/
structure time_point where
  count : Int
  deriving DecidableEq, Repr

/-- A `std::timespec`: whole seconds and nanoseconds. -/
structure timespec where
  tv_sec : Int
  tv_nsec : Int
  deriving DecidableEq, Repr

/-- Nanoseconds per second, the ratio between `std::chrono::seconds` and
`std::chrono::nanoseconds`. -/
def NANOS_PER_SEC : Int := 1000000000

/-- The `std::chrono::duration_cast<seconds>` of a nanosecond count: the integer division of
C++, which truncates toward zero. -/
def duration_cast_seconds (ns : Int) : Int := Int.tdiv ns NANOS_PER_SEC

/-- The conversion of a count of seconds to the common type `nanoseconds`: a 64-bit
multiplication. -/
def seconds_to_nanoseconds (s : Int) : Int := wrap64 (s * NANOS_PER_SEC)

/-- The `std::chrono::system_clock::to_time_t`: the seconds of the instant. -/
def to_time_t (tp : time_point) : Int := duration_cast_seconds tp.count

/-- The `std::chrono::time_point_cast<std::chrono::seconds>`: the count of seconds of the
instant at seconds granularity. -/
def time_point_cast_seconds (tp : time_point) : Int := duration_cast_seconds tp.count

/-- The expression `tp - std::chrono::time_point_cast<std::chrono::seconds>(tp)` as a count
of nanoseconds: both operands are brought to nanoseconds and subtracted in 64 bits. -/
def subsecond_nanoseconds (tp : time_point) : Int :=
  wrap64 (tp.count - seconds_to_nanoseconds (time_point_cast_seconds tp))

/-- Source lines 12-19. -/
def timepoint2timespec (tp : time_point) : timespec :=
  { tv_sec := to_time_t tp
    tv_nsec := subsecond_nanoseconds tp }

/-- Source lines 21-27. -/
def timespec2timepoint (ts : timespec) : time_point :=
  { count := wrap64 (seconds_to_nanoseconds ts.tv_sec + ts.tv_nsec) }

/-! ## Decimal rendering of integers -/

/-- The character of a decimal digit: `'0' + d`. -/
def digitChar (d : Nat) : Char := Char.ofNat (48 + d)

/-- The digit loop of the decimal conversion: the last digit is produced first and written
in front of what is already there. The first argument bounds the number of digits. -/
def to_chars_10 : Nat → Nat → List Char → List Char
  | 0, _, acc => acc
  | fuel + 1, n, acc =>
    if n < 10 then digitChar n :: acc
    else to_chars_10 fuel (n / 10) (digitChar (n % 10) :: acc)

/-- The decimal digits of an unsigned value, most significant first, no padding. -/
def unsigned_to_chars (n : Nat) : List Char := to_chars_10 (n + 1) n []

/-- The `std::to_string(long)`: a minus sign for a negative value, then the decimal digits
of the magnitude. -/
def std_to_string (v : Int) : List Char :=
  if v < 0 then '-' :: unsigned_to_chars v.natAbs else unsigned_to_chars v.natAbs

/-! ## The C library: `std::gmtime` and `std::strftime`

Neither function is part of the repository; both are modelled after the C library they are
linked from. -/

/-- The fields of `std::tm` that the format `"%F %T."` reads. -/
structure tm where
  tm_sec : Int
  tm_min : Int
  tm_hour : Int
  tm_mday : Int
  tm_mon : Int
  tm_year : Int
  deriving DecidableEq, Repr

/-- Days from 1970-01-01 to 2000-03-01, the day after a leap day that starts a 400-year
cycle. -/
def LEAPOCH_DAYS : Int := 11017

/-- Lengths of the months of a year that starts in March. -/
def days_in_month : List Int := [31, 30, 31, 30, 31, 31, 30, 31, 30, 31, 31, 29]

/-- The month loop of the break-down: months are skipped while the remaining days reach
their length. Returns the month index (0 is March) and the remaining days. -/
def month_loop : List Int → Int → Int → Int × Int
  | [], months, remdays => (months, remdays)
  | len :: rest, months, remdays =>
    if len ≤ remdays then month_loop rest (months + 1) (remdays - len)
    else (months, remdays)

/-- The `std::gmtime`: break-down of a `time_t` into UTC calendar fields, by 400-year,
100-year, 4-year and 1-year cycles counted from 2000-03-01. The result is `none` (a null
pointer) when the year does not fit the `int` field `tm_year`. -/
def gmtime (t : Int) : Option tm :=
  let days := t / 86400 - LEAPOCH_DAYS
  let remsecs := t % 86400
  let qc_cycles := days / 146097
  let remdays := days % 146097
  let c_cycles := if remdays / 36524 = 4 then 3 else remdays / 36524
  let remdays := remdays - c_cycles * 36524
  let q_cycles := if remdays / 1461 = 25 then 24 else remdays / 1461
  let remdays := remdays - q_cycles * 1461
  let remyears := if remdays / 365 = 4 then 3 else remdays / 365
  let remdays := remdays - remyears * 365
  let years := remyears + 4 * q_cycles + 100 * c_cycles + 400 * qc_cycles
  let md := month_loop days_in_month 0 remdays
  let months := if md.1 ≥ 10 then md.1 - 12 else md.1
  let years := if md.1 ≥ 10 then years + 1 else years
  if years + 100 > INT_MAX ∨ years + 100 < INT_MIN then none
  else some
    { tm_sec := remsecs % 60
      tm_min := remsecs / 60 % 60
      tm_hour := remsecs / 3600
      tm_mday := md.2 + 1
      tm_mon := months + 2
      tm_year := years + 100 }

/-- A number conversion of `strftime`: the decimal digits, padded on the left with zeros to
`width` characters, a minus sign counting as one of them. -/
def fmt_number (width : Nat) (v : Int) : List Char :=
  let ds := unsigned_to_chars v.natAbs
  if v < 0 then '-' :: (List.replicate (width - 1 - ds.length) '0' ++ ds)
  else List.replicate (width - ds.length) '0' ++ ds

/-- The text of the format `"%F %T."`, that is `"%Y-%m-%d %H:%M:%S."`. The year of `%Y` is
the sum `tm_year + 1900` computed in `int`, which wraps for the last 1900 values of
`tm_year`. -/
def format_F_T (t : tm) : List Char :=
  fmt_number 1 (wrap32 (t.tm_year + 1900)) ++ '-' :: fmt_number 2 (t.tm_mon + 1) ++
    '-' :: fmt_number 2 t.tm_mday ++ ' ' :: fmt_number 2 t.tm_hour ++
    ':' :: fmt_number 2 t.tm_min ++ ':' :: fmt_number 2 t.tm_sec ++ ['.']

/-- The `std::strftime(tmp, maxsize, "%F %T.", tmPtr)` on a zeroed buffer: the text when it
fits the buffer together with its terminator; otherwise the buffer content is unspecified
(`none`). -/
def strftime (maxsize : Nat) (t : tm) : Option (List Char) :=
  if (format_F_T t).length + 1 ≤ maxsize then some (format_F_T t) else none

/-! ## The formatters of the repository -/

/-- Source lines 29-43, the overload for `time_point`. The result is `none` when `gmtime`
returns a null pointer, which `strftime` reads through. -/
def to_string_time_point (tp : time_point) : Option String := do
  let t := to_time_t tp
  let tmPtr ← gmtime t
  let tmp ← strftime 30 tmPtr
  let ns := subsecond_nanoseconds tp
  pure (String.mk (tmp ++ std_to_string ns))

/-- Source lines 45-54, the overload for `timespec`. -/
def to_string_timespec (ts : timespec) : Option String := do
  let t := ts.tv_sec
  let tmPtr ← gmtime t
  let tmp ← strftime 30 tmPtr
  pure (String.mk (tmp ++ std_to_string ts.tv_nsec))

/-- The `std::cout << tp` of C++20 for a `sys_time` in nanoseconds, that is
`std::format("{:L%F %T}", tp)`: the date and time of the floor of the instant to seconds,
then the sub-second part as a decimal fraction of exactly nine digits. Library code outside
the repository; the calendar fields are taken from the same break-down as `gmtime`. -/
def stream_time_point (tp : time_point) : Option String := do
  let secs := tp.count / NANOS_PER_SEC
  let frac := tp.count % NANOS_PER_SEC
  let t ← gmtime secs
  pure (String.mk
    (fmt_number 4 (t.tm_year + 1900) ++ '-' :: fmt_number 2 (t.tm_mon + 1) ++
      '-' :: fmt_number 2 t.tm_mday ++ ' ' :: fmt_number 2 t.tm_hour ++
      ':' :: fmt_number 2 t.tm_min ++ ':' :: fmt_number 2 t.tm_sec ++
      '.' :: fmt_number 9 frac))

/-- Source lines 56-71 as a function of the instant that `system_clock::now()` returns:
the four lines written to the standard output. -/
def main (now : time_point) : Option (List String) := do
  let tp := now
  let ts := timepoint2timespec tp
  let line1 ← stream_time_point tp
  let line2 ← to_string_time_point tp
  let line3 ← to_string_timespec ts
  let tp := timespec2timepoint ts
  let line4 ← to_string_time_point tp
  pure [line1, line2, line3, line4]

/-! ## The calendar and the decimal notation, in the words of the specification -/

/-- Leap years of the proleptic Gregorian calendar: the years divisible by 4, except the
centuries not divisible by 400. -/
def spec_isLeapYear (y : Nat) : Bool :=
  decide (y % 4 = 0 ∧ (y % 100 ≠ 0 ∨ y % 400 = 0))

/-- Number of days of a year. -/
def spec_daysInYear (y : Nat) : Nat := if spec_isLeapYear y then 366 else 365

/-- Number of days of month `m` (1 to 12) of year `y`. -/
def spec_daysInMonth (y m : Nat) : Nat :=
  match m with
  | 1 => 31
  | 2 => if spec_isLeapYear y then 29 else 28
  | 3 => 31
  | 4 => 30
  | 5 => 31
  | 6 => 30
  | 7 => 31
  | 8 => 31
  | 9 => 30
  | 10 => 31
  | 11 => 30
  | 12 => 31
  | _ => 0

/-- Days in the years `0` to `y - 1`. -/
def spec_daysBeforeYear : Nat → Nat
  | 0 => 0
  | y + 1 => spec_daysBeforeYear y + spec_daysInYear y

/-- Days in the months `1` to `m - 1` of year `y`. -/
def spec_daysBeforeMonth (y : Nat) : Nat → Nat
  | 0 => 0
  | 1 => 0
  | m + 2 => spec_daysBeforeMonth y (m + 1) + spec_daysInMonth y (m + 1)

/-- Days from 1970-01-01 to the date `Y-M-D`. -/
def spec_daysSinceEpoch (Y M D : Nat) : Int :=
  ((spec_daysBeforeYear Y + spec_daysBeforeMonth Y M + D : Nat) : Int) - 1
    - (spec_daysBeforeYear 1970 : Nat)

/-- Seconds from 1970-01-01T00:00:00 to `Y-M-D h:mi:s`, every day having 86400 seconds and
no zone offset applied. -/
def spec_secondsSinceEpoch (Y M D h mi s : Nat) : Int :=
  spec_daysSinceEpoch Y M D * 86400 + h * 3600 + mi * 60 + s

/-- The fields are a date of the calendar and a time of day. -/
def spec_validCivil (Y M D h mi s : Nat) : Prop :=
  1 ≤ M ∧ M ≤ 12 ∧ 1 ≤ D ∧ D ≤ spec_daysInMonth Y M ∧ h < 24 ∧ mi < 60 ∧ s < 60

instance (Y M D h mi s : Nat) : Decidable (spec_validCivil Y M D h mi s) := by
  unfold spec_validCivil; exact inferInstance

/-- The last `w` decimal digits of `n`, most significant first. -/
def spec_fixedWidth : Nat → Nat → List Char
  | 0, _ => []
  | w + 1, n => spec_fixedWidth w (n / 10) ++ [digitChar (n % 10)]

/-- The text `YYYY-MM-DD HH:MM:SS.` of the fields. -/
def spec_calendarText (Y M D h mi s : Nat) : List Char :=
  spec_fixedWidth 4 Y ++ '-' :: spec_fixedWidth 2 M ++ '-' :: spec_fixedWidth 2 D ++
    ' ' :: spec_fixedWidth 2 h ++ ':' :: spec_fixedWidth 2 mi ++ ':' :: spec_fixedWidth 2 s
    ++ ['.']

/-- The number that a string of decimal digits denotes. -/
def spec_decimalValue (cs : List Char) : Nat :=
  cs.foldl (fun acc c => 10 * acc + (c.toNat - 48)) 0

/-- The text is a decimal rendering of `n`: a non-empty string of decimal digits that
denotes `n`. -/
def spec_isDecimalOf (cs : List Char) (n : Nat) : Prop :=
  cs ≠ [] ∧ (∀ c ∈ cs, c.isDigit = true) ∧ spec_decimalValue cs = n

/-! ## Closed forms used in the proofs -/

/-- Leap-year rule over the integers. -/
def leapInt (y : Int) : Prop := y % 4 = 0 ∧ (y % 100 ≠ 0 ∨ y % 400 = 0)

instance (y : Int) : Decidable (leapInt y) := by
  unfold leapInt; exact inferInstance

/-- Closed form of the days before year `y`, counted from year 0. -/
def dbyInt (y : Int) : Int := 365 * y + (y + 3) / 4 - (y + 99) / 100 + (y + 399) / 400

/-- Closed form of the days before month `m` of year `y`. -/
def dbmInt (y m : Int) : Int :=
  if m = 1 then 0 else if m = 2 then 31 else
  (if leapInt y then 1 else 0) +
  (if m = 3 then 59 else if m = 4 then 90 else if m = 5 then 120 else if m = 6 then 151
   else if m = 7 then 181 else if m = 8 then 212 else if m = 9 then 243
   else if m = 10 then 273 else if m = 11 then 304 else 334)

/-- Closed form of the length of month `m` of year `y`. -/
def dimInt (y m : Int) : Int :=
  if m = 2 then (if leapInt y then 29 else 28)
  else if m = 4 ∨ m = 6 ∨ m = 9 ∨ m = 11 then 30 else 31

/-- Days before the month with index `mi` of a year that starts in March. -/
def cumdays (mi : Int) : Int :=
  if mi = 0 then 0 else if mi = 1 then 31 else if mi = 2 then 61 else if mi = 3 then 92
  else if mi = 4 then 122 else if mi = 5 then 153 else if mi = 6 then 184
  else if mi = 7 then 214 else if mi = 8 then 245 else if mi = 9 then 275
  else if mi = 10 then 306 else 337

/-- Length of the month with index `mi` of a year that starts in March, as the table of
`days_in_month` has it. -/
def mlen (mi : Int) : Int :=
  if mi = 0 then 31 else if mi = 1 then 30 else if mi = 2 then 31 else if mi = 3 then 30
  else if mi = 4 then 31 else if mi = 5 then 31 else if mi = 6 then 30 else if mi = 7 then 31
  else if mi = 8 then 30 else if mi = 9 then 31 else if mi = 10 then 31 else 29

/-! ## Theorems -/

theorem wrap64_of_inInt64 {z : Int} (h : inInt64 z) : wrap64 z = z := by
  unfold inInt64 INT64_MIN INT64_MAX at h
  unfold wrap64
  omega

/-- For a non-negative dividend the truncating division is the flooring one. -/
theorem duration_cast_seconds_nonneg {c : Int} (h : 0 ≤ c) :
    duration_cast_seconds c = c / 1000000000 := by
  unfold duration_cast_seconds NANOS_PER_SEC
  exact Int.tdiv_eq_ediv h (by decide)

/-- For a negative dividend the truncating division rounds up. -/
theorem duration_cast_seconds_neg {c : Int} (h : c < 0) :
    duration_cast_seconds c = -((-c) / 1000000000) := by
  unfold duration_cast_seconds NANOS_PER_SEC
  have h1 : Int.tdiv (-(-c)) 1000000000 = -(Int.tdiv (-c) 1000000000) := Int.neg_tdiv _ _
  rw [neg_neg] at h1
  rw [h1, Int.tdiv_eq_ediv (by omega) (by decide)]

/-- The exact (unwrapped) value of the sub-second part. -/
theorem subsecond_nanoseconds_exact (tp : time_point) :
    subsecond_nanoseconds tp = tp.count - duration_cast_seconds tp.count * 1000000000 := by
  unfold subsecond_nanoseconds seconds_to_nanoseconds time_point_cast_seconds NANOS_PER_SEC
  rcases lt_or_le tp.count 0 with hc | hc
  · rw [duration_cast_seconds_neg hc]
    unfold wrap64
    omega
  · rw [duration_cast_seconds_nonneg hc]
    unfold wrap64
    omega


/-! ### The conversions -/

theorem timepoint2timespec_exact (x : time_point) :
    timepoint2timespec x =
      { tv_sec := duration_cast_seconds x.count
        tv_nsec := x.count - duration_cast_seconds x.count * 1000000000 } := by
  unfold timepoint2timespec to_time_t
  rw [subsecond_nanoseconds_exact x]

theorem timespec2timepoint_exact (s n : Int) (h : inInt64 (s * 1000000000 + n)) :
    timespec2timepoint { tv_sec := s, tv_nsec := n } = { count := s * 1000000000 + n } := by
  unfold inInt64 INT64_MIN INT64_MAX at h
  unfold timespec2timepoint seconds_to_nanoseconds NANOS_PER_SEC wrap64
  simp only [time_point.mk.injEq]
  omega

/-- Claim C1. Round trip: for every calendar instant `x`, a signed 64-bit count of
nanoseconds since the epoch, `timespec2timepoint (timepoint2timespec x) = x`. -/
theorem C1_round_trip (x : time_point) (h : inInt64 x.count) :
    timespec2timepoint (timepoint2timespec x) = x := by
  rw [timepoint2timespec_exact x, timespec2timepoint_exact]
  · cases x with
    | mk c => simp
  · have e : duration_cast_seconds x.count * 1000000000 +
        (x.count - duration_cast_seconds x.count * 1000000000) = x.count := by ring
    rw [e]; exact h

/-- Witness of C1 at an instant before the epoch. -/
theorem C1_round_trip_witness :
    inInt64 (-1500000000) ∧
      timespec2timepoint (timepoint2timespec { count := -1500000000 })
        = { count := -1500000000 } :=
  ⟨by decide, C1_round_trip { count := -1500000000 } (by decide)⟩

/-- The truncated quotient and its remainder, for an instant at or after the epoch. -/
theorem duration_cast_seconds_bounds_nonneg {c : Int} (h : 0 ≤ c) :
    duration_cast_seconds c * 1000000000 ≤ c ∧
      c < duration_cast_seconds c * 1000000000 + 1000000000 := by
  rw [duration_cast_seconds_nonneg h]
  omega

/-- The truncated quotient and its remainder, for an instant before the epoch. -/
theorem duration_cast_seconds_bounds_neg {c : Int} (h : c < 0) :
    c ≤ duration_cast_seconds c * 1000000000 ∧
      duration_cast_seconds c * 1000000000 - 1000000000 < c := by
  rw [duration_cast_seconds_neg h]
  omega

/-- Claim C3 as stated fails: the instant one nanosecond before the epoch has the
nanosecond component `-1`. -/
theorem C3_counterexample :
    ¬ (0 ≤ (timepoint2timespec { count := -1 }).tv_nsec ∧
        (timepoint2timespec { count := -1 }).tv_nsec ≤ 999999999) := by
  decide

/-- Claim C3, amended. The `tv_nsec` component returned by `timepoint2timespec x` lies in
`[0, 999999999]` for every instant at or after the epoch, and in `[-999999999, 0]` for every
instant before the epoch. -/
theorem C3_nanosecond_range (x : time_point) (h : inInt64 x.count) :
    (0 ≤ x.count → 0 ≤ (timepoint2timespec x).tv_nsec ∧
        (timepoint2timespec x).tv_nsec ≤ 999999999) ∧
    (x.count < 0 → -999999999 ≤ (timepoint2timespec x).tv_nsec ∧
        (timepoint2timespec x).tv_nsec ≤ 0) := by
  have _hx := h
  rw [timepoint2timespec_exact x]
  constructor
  · intro hc
    have := duration_cast_seconds_bounds_nonneg hc
    simp only
    omega
  · intro hc
    have := duration_cast_seconds_bounds_neg hc
    simp only
    omega

/-- Witness of the amended C3 at an instant after the epoch. -/
theorem C3_nanosecond_range_witness :
    inInt64 1700000000123000000 ∧
      0 ≤ (timepoint2timespec { count := 1700000000123000000 }).tv_nsec ∧
      (timepoint2timespec { count := 1700000000123000000 }).tv_nsec ≤ 999999999 :=
  ⟨by decide,
    (C3_nanosecond_range { count := 1700000000123000000 } (by decide)).1 (by decide)⟩

/-- Claim C6. Decomposition: for an instant with nanosecond count `c`, `tv_sec` is `c / 10^9`
truncated toward zero (the floor of the quotient when `c` is not negative, its ceiling
otherwise) and `tv_nsec = c - tv_sec * 10^9`. -/
theorem C6_decomposition (x : time_point) (h : inInt64 x.count) :
    (timepoint2timespec x).tv_sec = Int.tdiv x.count 1000000000 ∧
    (timepoint2timespec x).tv_sec =
      (if 0 ≤ x.count then ⌊(x.count : ℚ) / 1000000000⌋ else ⌈(x.count : ℚ) / 1000000000⌉) ∧
    (0 ≤ x.count → (timepoint2timespec x).tv_sec = ⌊(x.count : ℚ) / 1000000000⌋) ∧
    (timepoint2timespec x).tv_nsec
      = x.count - (timepoint2timespec x).tv_sec * 1000000000 := by
  have _hx := h
  rw [timepoint2timespec_exact x]
  have hfloor : ∀ z : Int, ⌊(z : ℚ) / 1000000000⌋ = z / 1000000000 := by
    intro z
    have := Rat.floor_intCast_div_natCast z 1000000000
    simpa using this
  refine ⟨rfl, ?_, ?_, rfl⟩
  · simp only
    split_ifs with hc
    · rw [hfloor, duration_cast_seconds_nonneg hc]
    · have hc1 : x.count < 0 := by omega
      have e : ⌈(x.count : ℚ) / 1000000000⌉ = -⌊((-x.count : Int) : ℚ) / 1000000000⌋ := by
        rw [← Int.ceil_neg]
        congr 1
        push_cast
        ring
      rw [e, hfloor, duration_cast_seconds_neg hc1]
  · intro hc
    simp only
    rw [hfloor, duration_cast_seconds_nonneg hc]

/-- Claim C7. Reconstruction without validation: when `s * 10^9 + n` fits in 64 bits,
`timespec2timepoint` returns the instant exactly `s * 10^9 + n` nanoseconds after the epoch,
whatever the range of `n`; the pair is neither rejected nor normalised, so the pairs
`(s, n + 10^9)` and `(s + 1, n)` give the same instant. -/
theorem C7_reconstruction (s n : Int) (h : inInt64 (s * 1000000000 + n)) :
    (timespec2timepoint { tv_sec := s, tv_nsec := n }).count = s * 1000000000 + n ∧
    timespec2timepoint { tv_sec := s, tv_nsec := n + 1000000000 }
      = timespec2timepoint { tv_sec := s + 1, tv_nsec := n } := by
  constructor
  · rw [timespec2timepoint_exact s n h]
  · unfold timespec2timepoint seconds_to_nanoseconds NANOS_PER_SEC wrap64
    simp only [time_point.mk.injEq]
    omega

/-- Witness of C7 at a pair whose nanoseconds are out of the canonical range. -/
theorem C7_reconstruction_witness :
    inInt64 (1700000000 * 1000000000 + (-2500000000)) ∧
      (timespec2timepoint { tv_sec := 1700000000, tv_nsec := -2500000000 }).count
        = 1700000000 * 1000000000 + (-2500000000) ∧
      timespec2timepoint { tv_sec := 1700000000, tv_nsec := -2500000000 + 1000000000 }
        = timespec2timepoint { tv_sec := 1700000000 + 1, tv_nsec := -2500000000 } :=
  ⟨by decide, C7_reconstruction 1700000000 (-2500000000) (by decide)⟩

/-- The seconds and the sub-second part of the instant of a pair with non-negative seconds
and canonical nanoseconds. -/
theorem duration_cast_seconds_pair {s n : Int} (hs : 0 ≤ s) (hn0 : 0 ≤ n)
    (hn1 : n < 1000000000) : duration_cast_seconds (s * 1000000000 + n) = s := by
  rw [duration_cast_seconds_nonneg (by omega)]
  omega

/-- Claim C10. Reverse round trip: for every pair `(s, n)` with `s >= 0`,
`0 <= n < 10^9` and `s * 10^9 + n` representable in 64 bits,
`timepoint2timespec (timespec2timepoint (s, n)) = (s, n)`. -/
theorem C10_reverse_round_trip (s n : Int) (hs : 0 ≤ s) (hn0 : 0 ≤ n)
    (hn1 : n < 1000000000) (h : inInt64 (s * 1000000000 + n)) :
    timepoint2timespec (timespec2timepoint { tv_sec := s, tv_nsec := n })
      = { tv_sec := s, tv_nsec := n } := by
  rw [timespec2timepoint_exact s n h, timepoint2timespec_exact]
  simp only [duration_cast_seconds_pair hs hn0 hn1, timespec.mk.injEq, true_and]
  ring

/-- Witness of C10. -/
theorem C10_reverse_round_trip_witness :
    (0 : Int) ≤ 1700000000 ∧ (0 : Int) ≤ 123000000 ∧ (123000000 : Int) < 1000000000 ∧
      inInt64 (1700000000 * 1000000000 + 123000000) ∧
      timepoint2timespec (timespec2timepoint { tv_sec := 1700000000, tv_nsec := 123000000 })
        = { tv_sec := 1700000000, tv_nsec := 123000000 } :=
  ⟨by decide, by decide, by decide, by decide,
    C10_reverse_round_trip 1700000000 123000000 (by decide) (by decide) (by decide)
      (by decide)⟩

/-- Witness of C6 at an instant after the epoch. -/
theorem C6_decomposition_witness :
    inInt64 1700000000123000000 ∧
      (timepoint2timespec { count := 1700000000123000000 }).tv_sec = 1700000000 ∧
      (timepoint2timespec { count := 1700000000123000000 }).tv_nsec = 123000000 := by
  have h := C6_decomposition { count := 1700000000123000000 } (by decide)
  refine ⟨by decide, ?_, ?_⟩
  · rw [h.1]; decide
  · rw [h.2.2.2, h.1]; decide

/-! ### Decimal rendering -/

theorem digitChar_isDigit {d : Nat} (h : d < 10) : (digitChar d).isDigit = true := by
  interval_cases d <;> decide

theorem digitChar_toNat {d : Nat} (h : d < 10) : (digitChar d).toNat - 48 = d := by
  interval_cases d <;> decide

theorem to_chars_10_lt (fuel : Nat) {n : Nat} (acc : List Char) (h : n < 10) :
    to_chars_10 (fuel + 1) n acc = digitChar n :: acc := by
  rw [to_chars_10, if_pos h]

theorem to_chars_10_ge (fuel : Nat) {n : Nat} (acc : List Char) (h : 10 ≤ n) :
    to_chars_10 (fuel + 1) n acc = to_chars_10 fuel (n / 10) (digitChar (n % 10) :: acc) := by
  rw [to_chars_10, if_neg (by omega)]

/-- The digits are written in front of the accumulator. -/
theorem to_chars_10_acc (fuel : Nat) : ∀ (n : Nat) (acc : List Char), n < fuel →
    to_chars_10 fuel n acc = to_chars_10 fuel n [] ++ acc := by
  induction fuel with
  | zero => intro n acc h; omega
  | succ f ih =>
    intro n acc h
    rcases lt_or_le n 10 with h10 | h10
    · rw [to_chars_10_lt f acc h10, to_chars_10_lt f [] h10]; rfl
    · have hq : n / 10 < f := by omega
      rw [to_chars_10_ge f acc h10, to_chars_10_ge f [] h10, ih _ _ hq,
        ih _ [digitChar (n % 10)] hq]
      simp

/-- Any bound above the value gives the same digits. -/
theorem to_chars_10_fuel (fuel : Nat) : ∀ (fuel2 n : Nat) (acc : List Char), n < fuel →
    n < fuel2 → to_chars_10 fuel n acc = to_chars_10 fuel2 n acc := by
  induction fuel with
  | zero => intro fuel2 n acc h; omega
  | succ f ih =>
    intro fuel2 n acc h h2
    obtain ⟨g, rfl⟩ : ∃ g, fuel2 = g + 1 := ⟨fuel2 - 1, by omega⟩
    rcases lt_or_le n 10 with h10 | h10
    · rw [to_chars_10_lt f acc h10, to_chars_10_lt g acc h10]
    · rw [to_chars_10_ge f acc h10, to_chars_10_ge g acc h10]
      exact ih _ _ _ (by omega) (by omega)

theorem unsigned_to_chars_lt {n : Nat} (h : n < 10) :
    unsigned_to_chars n = [digitChar n] := by
  unfold unsigned_to_chars
  rw [to_chars_10_lt n [] h]

theorem unsigned_to_chars_ge {n : Nat} (h : 10 ≤ n) :
    unsigned_to_chars n = unsigned_to_chars (n / 10) ++ [digitChar (n % 10)] := by
  unfold unsigned_to_chars
  rw [to_chars_10_ge n [] h, to_chars_10_acc n _ _ (by omega)]
  rw [to_chars_10_fuel n (n / 10 + 1) (n / 10) [] (by omega) (by omega)]

theorem spec_decimalValue_snoc (cs : List Char) (c : Char) :
    spec_decimalValue (cs ++ [c]) = 10 * spec_decimalValue cs + (c.toNat - 48) := by
  unfold spec_decimalValue
  rw [List.foldl_append]
  rfl

/-- The rendering is a decimal rendering of the value. -/
theorem unsigned_to_chars_isDecimalOf (n : Nat) :
    spec_isDecimalOf (unsigned_to_chars n) n := by
  induction n using Nat.strong_induction_on with
  | _ n ih =>
    rcases lt_or_le n 10 with h10 | h10
    · rw [unsigned_to_chars_lt h10]
      refine ⟨by simp, ?_, ?_⟩
      · intro c hc
        rw [List.mem_singleton] at hc
        rw [hc]; exact digitChar_isDigit h10
      · have := spec_decimalValue_snoc [] (digitChar n)
        rw [List.nil_append] at this
        rw [this, digitChar_toNat h10]
        simp [spec_decimalValue]
    · obtain ⟨_, hd, hv⟩ := ih (n / 10) (by omega)
      rw [unsigned_to_chars_ge h10]
      refine ⟨by simp, ?_, ?_⟩
      · intro c hc
        rw [List.mem_append, List.mem_singleton] at hc
        rcases hc with hc | hc
        · exact hd c hc
        · rw [hc]; exact digitChar_isDigit (by omega)
      · rw [spec_decimalValue_snoc, hv, digitChar_toNat (by omega)]
        omega

/-- The number of digits of the rendering. -/
theorem unsigned_to_chars_length (n : Nat) : ∀ k : Nat, 1 ≤ k → n < 10 ^ k →
    (unsigned_to_chars n).length ≤ k := by
  induction n using Nat.strong_induction_on with
  | _ n ih =>
    intro k hk hn
    rcases lt_or_le n 10 with h10 | h10
    · rw [unsigned_to_chars_lt h10]; simpa using hk
    · obtain ⟨j, rfl⟩ : ∃ j, k = j + 1 := ⟨k - 1, by omega⟩
      have hj : 1 ≤ j := by
        rcases Nat.eq_zero_or_pos j with h0 | h0
        · subst h0; simp at hn; omega
        · exact h0
      have hq : n / 10 < 10 ^ j := by
        rw [pow_succ] at hn
        omega
      have := ih (n / 10) (by omega) j hj hq
      rw [unsigned_to_chars_ge h10, List.length_append]
      simp only [List.length_singleton]
      omega

/-- A string of `k` decimal digits denotes a number below `10 ^ k`. -/
theorem spec_decimalValue_lt (cs : List Char) (hd : ∀ c ∈ cs, c.isDigit = true) :
    spec_decimalValue cs < 10 ^ cs.length := by
  have key : ∀ (l : List Char) (acc : Nat), (∀ c ∈ l, c.isDigit = true) →
      l.foldl (fun acc c => 10 * acc + (c.toNat - 48)) acc < (acc + 1) * 10 ^ l.length := by
    intro l
    induction l with
    | nil => intro acc _; simp
    | cons c l ih =>
      intro acc h
      have hc : c.isDigit = true := h c (by simp)
      have hc9 : c.toNat - 48 ≤ 9 := by
        simp only [Char.isDigit, Bool.and_eq_true, decide_eq_true_eq] at hc
        have h2 : c.val ≤ 57 := hc.2
        have h3 : c.toNat ≤ 57 := by
          have := UInt32.le_def.mp h2
          simpa [Char.toNat] using this
        omega
      have := ih (10 * acc + (c.toNat - 48)) (fun x hx => h x (by simp [hx]))
      rw [List.foldl_cons, List.length_cons, pow_succ]
      calc _ < (10 * acc + (c.toNat - 48) + 1) * 10 ^ l.length := this
        _ ≤ ((acc + 1) * 10) * 10 ^ l.length := by
          apply Nat.mul_le_mul_right
          omega
        _ = (acc + 1) * (10 ^ l.length * 10) := by ring
  have := key cs 0 hd
  simpa [spec_decimalValue] using this

/-- The rendering is the shortest decimal rendering of the value. -/
theorem unsigned_to_chars_shortest (n : Nat) (cs : List Char) (h : spec_isDecimalOf cs n) :
    (unsigned_to_chars n).length ≤ cs.length := by
  obtain ⟨hne, hd, hv⟩ := h
  have hlt := spec_decimalValue_lt cs hd
  rw [hv] at hlt
  have hpos : 1 ≤ cs.length := by
    rcases cs with _ | ⟨c, cs⟩
    · exact absurd rfl hne
    · simp
  exact unsigned_to_chars_length n cs.length hpos hlt

/-! ### The calendar break-down -/

/-- The cycle counts of the break-down and the days that remain in the last year. -/
theorem gmtime_cycles (days qc r0 c r1 q r2 ry r3 : Int)
    (hqc : qc = days / 146097) (hr0 : r0 = days % 146097)
    (hc : c = if r0 / 36524 = 4 then 3 else r0 / 36524)
    (hr1 : r1 = r0 - c * 36524)
    (hq : q = if r1 / 1461 = 25 then 24 else r1 / 1461)
    (hr2 : r2 = r1 - q * 1461)
    (hry : ry = if r2 / 365 = 4 then 3 else r2 / 365)
    (hr3 : r3 = r2 - ry * 365) :
    0 ≤ c ∧ c ≤ 3 ∧ 0 ≤ q ∧ q ≤ 24 ∧ 0 ≤ ry ∧ ry ≤ 3 ∧ 0 ≤ r3 ∧ r3 ≤ 365 ∧
    (r3 = 365 → ry = 3 ∧ (q < 24 ∨ c = 3)) ∧
    days = qc * 146097 + c * 36524 + q * 1461 + ry * 365 + r3 := by
  subst hr0 hqc
  split_ifs at hc hq hry <;> omega

theorem month_loop_pos {len : Int} {rest : List Int} {m r : Int} (h : len ≤ r) :
    month_loop (len :: rest) m r = month_loop rest (m + 1) (r - len) := by
  rw [month_loop, if_pos h]

theorem month_loop_neg {len : Int} {rest : List Int} {m r : Int} (h : ¬ len ≤ r) :
    month_loop (len :: rest) m r = (m, r) := by
  rw [month_loop, if_neg h]

/-- The month loop stops at the month that holds the day. -/
theorem month_loop_spec (r : Int) (h0 : 0 ≤ r) (h1 : r ≤ 365) :
    0 ≤ (month_loop days_in_month 0 r).1 ∧ (month_loop days_in_month 0 r).1 ≤ 11 ∧
    0 ≤ (month_loop days_in_month 0 r).2 ∧
    (month_loop days_in_month 0 r).2 + cumdays (month_loop days_in_month 0 r).1 = r ∧
    (month_loop days_in_month 0 r).2 < mlen (month_loop days_in_month 0 r).1 := by
  have hr : (0 ≤ r ∧ r < 31) ∨ (31 ≤ r ∧ r < 61) ∨ (61 ≤ r ∧ r < 92) ∨ (92 ≤ r ∧ r < 122) ∨ (122 ≤ r ∧ r < 153) ∨ (153 ≤ r ∧ r < 184) ∨ (184 ≤ r ∧ r < 214) ∨ (214 ≤ r ∧ r < 245) ∨ (245 ≤ r ∧ r < 275) ∨ (275 ≤ r ∧ r < 306) ∨ (306 ≤ r ∧ r < 337) ∨ (337 ≤ r ∧ r < 366) := by omega
  unfold cumdays mlen
  rcases hr with h | h | h | h | h | h | h | h | h | h | h | h
  · have e : month_loop days_in_month 0 r = (0, r - 0) := by
      unfold days_in_month
      rw [month_loop_neg (by omega), Prod.mk.injEq]
      constructor <;> omega
    rw [e]; simp; omega
  · have e : month_loop days_in_month 0 r = (1, r - 31) := by
      unfold days_in_month
      rw [month_loop_pos (by omega), month_loop_neg (by omega), Prod.mk.injEq]
      constructor <;> omega
    rw [e]; simp; omega
  · have e : month_loop days_in_month 0 r = (2, r - 61) := by
      unfold days_in_month
      rw [month_loop_pos (by omega), month_loop_pos (by omega), month_loop_neg (by omega), Prod.mk.injEq]
      constructor <;> omega
    rw [e]; simp; omega
  · have e : month_loop days_in_month 0 r = (3, r - 92) := by
      unfold days_in_month
      rw [month_loop_pos (by omega), month_loop_pos (by omega), month_loop_pos (by omega), month_loop_neg (by omega), Prod.mk.injEq]
      constructor <;> omega
    rw [e]; simp; omega
  · have e : month_loop days_in_month 0 r = (4, r - 122) := by
      unfold days_in_month
      rw [month_loop_pos (by omega), month_loop_pos (by omega), month_loop_pos (by omega), month_loop_pos (by omega), month_loop_neg (by omega), Prod.mk.injEq]
      constructor <;> omega
    rw [e]; simp; omega
  · have e : month_loop days_in_month 0 r = (5, r - 153) := by
      unfold days_in_month
      rw [month_loop_pos (by omega), month_loop_pos (by omega), month_loop_pos (by omega), month_loop_pos (by omega), month_loop_pos (by omega), month_loop_neg (by omega), Prod.mk.injEq]
      constructor <;> omega
    rw [e]; simp; omega
  · have e : month_loop days_in_month 0 r = (6, r - 184) := by
      unfold days_in_month
      rw [month_loop_pos (by omega), month_loop_pos (by omega), month_loop_pos (by omega), month_loop_pos (by omega), month_loop_pos (by omega), month_loop_pos (by omega), month_loop_neg (by omega), Prod.mk.injEq]
      constructor <;> omega
    rw [e]; simp; omega
  · have e : month_loop days_in_month 0 r = (7, r - 214) := by
      unfold days_in_month
      rw [month_loop_pos (by omega), month_loop_pos (by omega), month_loop_pos (by omega), month_loop_pos (by omega), month_loop_pos (by omega), month_loop_pos (by omega), month_loop_pos (by omega), month_loop_neg (by omega), Prod.mk.injEq]
      constructor <;> omega
    rw [e]; simp; omega
  · have e : month_loop days_in_month 0 r = (8, r - 245) := by
      unfold days_in_month
      rw [month_loop_pos (by omega), month_loop_pos (by omega), month_loop_pos (by omega), month_loop_pos (by omega), month_loop_pos (by omega), month_loop_pos (by omega), month_loop_pos (by omega), month_loop_pos (by omega), month_loop_neg (by omega), Prod.mk.injEq]
      constructor <;> omega
    rw [e]; simp; omega
  · have e : month_loop days_in_month 0 r = (9, r - 275) := by
      unfold days_in_month
      rw [month_loop_pos (by omega), month_loop_pos (by omega), month_loop_pos (by omega), month_loop_pos (by omega), month_loop_pos (by omega), month_loop_pos (by omega), month_loop_pos (by omega), month_loop_pos (by omega), month_loop_pos (by omega), month_loop_neg (by omega), Prod.mk.injEq]
      constructor <;> omega
    rw [e]; simp; omega
  · have e : month_loop days_in_month 0 r = (10, r - 306) := by
      unfold days_in_month
      rw [month_loop_pos (by omega), month_loop_pos (by omega), month_loop_pos (by omega), month_loop_pos (by omega), month_loop_pos (by omega), month_loop_pos (by omega), month_loop_pos (by omega), month_loop_pos (by omega), month_loop_pos (by omega), month_loop_pos (by omega), month_loop_neg (by omega), Prod.mk.injEq]
      constructor <;> omega
    rw [e]; simp; omega
  · have e : month_loop days_in_month 0 r = (11, r - 337) := by
      unfold days_in_month
      rw [month_loop_pos (by omega), month_loop_pos (by omega), month_loop_pos (by omega), month_loop_pos (by omega), month_loop_pos (by omega), month_loop_pos (by omega), month_loop_pos (by omega), month_loop_pos (by omega), month_loop_pos (by omega), month_loop_pos (by omega), month_loop_pos (by omega), month_loop_neg (by omega), Prod.mk.injEq]
      constructor <;> omega
    rw [e]; simp; omega

/-- From the cycle counts to the date: the day count of the date, by the closed forms, is
the day count that was broken down. -/
theorem gmtime_date (days qc c q ry r3 mi dd : Int)
    (hc0 : 0 ≤ c) (hc : c ≤ 3) (hq0 : 0 ≤ q) (hq : q ≤ 24) (hry0 : 0 ≤ ry) (hry : ry ≤ 3)
    (hr0 : 0 ≤ r3) (hr : r3 ≤ 365) (hleap : r3 = 365 → ry = 3 ∧ (q < 24 ∨ c = 3))
    (hdays : days = qc * 146097 + c * 36524 + q * 1461 + ry * 365 + r3)
    (hmi0 : 0 ≤ mi) (hmi : mi ≤ 11) (hdd : 0 ≤ dd)
    (hsum : dd + cumdays mi = r3) (hlt : dd < mlen mi)
    (Y M : Int)
    (hY : Y = 2000 + (if mi ≥ 10 then ry + 4 * q + 100 * c + 400 * qc + 1
      else ry + 4 * q + 100 * c + 400 * qc))
    (hM : M = (if mi ≥ 10 then mi - 12 else mi) + 3) :
    1 ≤ M ∧ M ≤ 12 ∧ dd + 1 ≤ dimInt Y M ∧
      dbyInt Y + dbmInt Y M + dd = days + 11017 + 719528 := by
  unfold cumdays at hsum
  unfold mlen at hlt
  unfold dimInt dbmInt dbyInt leapInt
  have hmi2 : mi = 0 ∨ mi = 1 ∨ mi = 2 ∨ mi = 3 ∨ mi = 4 ∨ mi = 5 ∨ mi = 6 ∨ mi = 7 ∨
      mi = 8 ∨ mi = 9 ∨ mi = 10 ∨ mi = 11 := by omega
  rcases hmi2 with h | h | h | h | h | h | h | h | h | h | h | h <;> subst h <;>
    simp at hsum hlt hY hM <;> subst hM <;> simp <;> omega

/-- The break-down with its intermediate values named. -/
theorem gmtime_civil_aux (t days qc r0 c r1 q r2 ry r3 : Int) (md : Int × Int)
    (hdays : days = t / 86400 - LEAPOCH_DAYS)
    (hqc : qc = days / 146097) (hr0 : r0 = days % 146097)
    (hc : c = if r0 / 36524 = 4 then 3 else r0 / 36524)
    (hr1 : r1 = r0 - c * 36524)
    (hq : q = if r1 / 1461 = 25 then 24 else r1 / 1461)
    (hr2 : r2 = r1 - q * 1461)
    (hry : ry = if r2 / 365 = 4 then 3 else r2 / 365)
    (hr3 : r3 = r2 - ry * 365)
    (hmd : md = month_loop days_in_month 0 r3) :
    ∃ Y M D h mi sec : Int,
      1 ≤ M ∧ M ≤ 12 ∧ 1 ≤ D ∧ D ≤ dimInt Y M ∧
      0 ≤ h ∧ h < 24 ∧ 0 ≤ mi ∧ mi < 60 ∧ 0 ≤ sec ∧ sec < 60 ∧
      (dbyInt Y + dbmInt Y M + D - 1 - 719528) * 86400 + h * 3600 + mi * 60 + sec = t ∧
      gmtime t =
        (if Y - 1900 > INT_MAX ∨ Y - 1900 < INT_MIN then none
         else some
          { tm_sec := sec, tm_min := mi, tm_hour := h, tm_mday := D, tm_mon := M - 1,
            tm_year := Y - 1900 }) := by
  obtain ⟨hc0, hc3, hq0, hq24, hry0, hry3, hr30, hr3365, hleap, hsum⟩ :=
    gmtime_cycles days qc r0 c r1 q r2 ry r3 hqc hr0 hc hr1 hq hr2 hry hr3
  obtain ⟨hm0, hm11, hd0, hdsum, hdlt⟩ := month_loop_spec r3 hr30 hr3365
  rw [← hmd] at hm0 hm11 hd0 hdsum hdlt
  obtain ⟨hM1, hM12, hD, hclosed⟩ :=
    gmtime_date days qc c q ry r3 md.1 md.2 hc0 hc3 hq0 hq24 hry0 hry3 hr30 hr3365 hleap hsum
      hm0 hm11 hd0 hdsum hdlt _ _ rfl rfl
  have hg : gmtime t =
      (if (if md.1 ≥ 10 then ry + 4 * q + 100 * c + 400 * qc + 1
            else ry + 4 * q + 100 * c + 400 * qc) + 100 > INT_MAX ∨
          (if md.1 ≥ 10 then ry + 4 * q + 100 * c + 400 * qc + 1
            else ry + 4 * q + 100 * c + 400 * qc) + 100 < INT_MIN then none
       else some
        { tm_sec := t % 86400 % 60, tm_min := t % 86400 / 60 % 60,
          tm_hour := t % 86400 / 3600, tm_mday := md.2 + 1,
          tm_mon := (if md.1 ≥ 10 then md.1 - 12 else md.1) + 2,
          tm_year := (if md.1 ≥ 10 then ry + 4 * q + 100 * c + 400 * qc + 1
            else ry + 4 * q + 100 * c + 400 * qc) + 100 }) := by
    subst hmd hr3 hry hr2 hq hr1 hc hr0 hqc hdays
    rfl
  refine ⟨_, _, md.2 + 1, t % 86400 / 3600, t % 86400 / 60 % 60, t % 86400 % 60,
    hM1, hM12, by omega, hD, by omega, by omega, by omega, by omega, by omega, by omega,
    ?_, ?_⟩
  · unfold LEAPOCH_DAYS at hdays
    omega
  · rw [hg]
    have e1 : ∀ z : Int, 2000 + z - 1900 = z + 100 := by intro z; ring
    have e2 : ∀ z : Int, z + 3 - 1 = z + 2 := by intro z; ring
    rw [e1, e2]

/-- The calendar break-down of any `time_t`: the fields are a date and a time of day, the
day count of the date (by the closed forms) and the time of day add up to the input, and
the result is a null pointer exactly when the year does not fit `tm_year`. -/
theorem gmtime_civil (t : Int) :
    ∃ Y M D h mi sec : Int,
      1 ≤ M ∧ M ≤ 12 ∧ 1 ≤ D ∧ D ≤ dimInt Y M ∧
      0 ≤ h ∧ h < 24 ∧ 0 ≤ mi ∧ mi < 60 ∧ 0 ≤ sec ∧ sec < 60 ∧
      (dbyInt Y + dbmInt Y M + D - 1 - 719528) * 86400 + h * 3600 + mi * 60 + sec = t ∧
      gmtime t =
        (if Y - 1900 > INT_MAX ∨ Y - 1900 < INT_MIN then none
         else some
          { tm_sec := sec, tm_min := mi, tm_hour := h, tm_mday := D, tm_mon := M - 1,
            tm_year := Y - 1900 }) :=
  gmtime_civil_aux t _ _ _ _ _ _ _ _ _ _ rfl rfl rfl rfl rfl rfl rfl rfl rfl rfl

/-! ### The closed forms against the calendar of the specification -/

theorem spec_isLeapYear_iff (y : Nat) : spec_isLeapYear y = true ↔ leapInt (y : Int) := by
  unfold spec_isLeapYear leapInt
  rw [decide_eq_true_iff]
  omega

theorem spec_daysBeforeYear_closed (y : Nat) : (spec_daysBeforeYear y : Int) = dbyInt y := by
  induction y with
  | zero => decide
  | succ y ih =>
    rw [spec_daysBeforeYear, Nat.cast_add, ih]
    unfold spec_daysInYear
    by_cases hl : spec_isLeapYear y = true
    · rw [if_pos hl]
      have := (spec_isLeapYear_iff y).mp hl
      unfold leapInt at this
      unfold dbyInt
      push_cast
      omega
    · rw [if_neg hl]
      have := mt (spec_isLeapYear_iff y).mpr hl
      unfold leapInt at this
      unfold dbyInt
      push_cast
      omega

theorem spec_daysInMonth_closed (y m : Nat) (h1 : 1 ≤ m) (h12 : m ≤ 12) :
    (spec_daysInMonth y m : Int) = dimInt y m := by
  unfold dimInt
  by_cases hl : spec_isLeapYear y = true
  · have hi := (spec_isLeapYear_iff y).mp hl
    interval_cases m <;> simp [spec_daysInMonth, hl, hi]
  · have hi := mt (spec_isLeapYear_iff y).mpr hl
    interval_cases m <;> simp [spec_daysInMonth, hl, hi]

theorem spec_daysBeforeMonth_closed (y m : Nat) (h1 : 1 ≤ m) (h12 : m ≤ 12) :
    (spec_daysBeforeMonth y m : Int) = dbmInt y m := by
  unfold dbmInt
  by_cases hl : spec_isLeapYear y = true
  · have hi := (spec_isLeapYear_iff y).mp hl
    interval_cases m <;> simp [spec_daysBeforeMonth, spec_daysInMonth, hl, hi]
  · have hi := mt (spec_isLeapYear_iff y).mpr hl
    interval_cases m <;> simp [spec_daysBeforeMonth, spec_daysInMonth, hl, hi]

theorem spec_secondsSinceEpoch_closed (Y M D h mi sec : Nat) (h1 : 1 ≤ M) (h12 : M ≤ 12) :
    spec_secondsSinceEpoch Y M D h mi sec =
      (dbyInt Y + dbmInt Y M + D - 1 - 719528) * 86400 + h * 3600 + mi * 60 + sec := by
  unfold spec_secondsSinceEpoch spec_daysSinceEpoch
  have e : (spec_daysBeforeYear 1970 : Int) = 719528 := by
    rw [spec_daysBeforeYear_closed]; decide
  rw [e]
  push_cast
  rw [spec_daysBeforeYear_closed, spec_daysBeforeMonth_closed Y M h1 h12]

/-! ### The number conversions of `strftime` -/

theorem spec_fixedWidth_length (w : Nat) : ∀ n : Nat, (spec_fixedWidth w n).length = w := by
  induction w with
  | zero => intro n; rfl
  | succ w ih => intro n; simp [spec_fixedWidth, ih]

/-- A field below 100 is written with two digits. -/
theorem fmt_number_two (v : Int) (h0 : 0 ≤ v) (h1 : v < 100) :
    fmt_number 2 v = spec_fixedWidth 2 v.toNat := by
  lift v to ℕ using h0
  have hv : v < 100 := by exact_mod_cast h1
  unfold fmt_number
  simp only [Int.natAbs_ofNat, Int.toNat_ofNat]
  rw [if_neg (by omega)]
  rcases lt_or_le v 10 with h10 | h10
  · rw [unsigned_to_chars_lt h10]
    have e0 : v / 10 % 10 = 0 := by omega
    have e1 : v % 10 = v := by omega
    simp [spec_fixedWidth, e0, e1]
    rfl
  · rw [unsigned_to_chars_ge h10, unsigned_to_chars_lt (by omega : v / 10 < 10)]
    have e0 : v / 10 % 10 = v / 10 := by omega
    simp [spec_fixedWidth, e0]

/-- A year of four digits is written with exactly these. -/
theorem fmt_number_year (v : Int) (h0 : 1000 ≤ v) (h1 : v ≤ 9999) :
    fmt_number 1 v = spec_fixedWidth 4 v.toNat := by
  lift v to ℕ using (by omega)
  have hv0 : 1000 ≤ v := by exact_mod_cast h0
  have hv1 : v ≤ 9999 := by exact_mod_cast h1
  unfold fmt_number
  simp only [Int.natAbs_ofNat, Int.toNat_ofNat]
  rw [if_neg (by omega)]
  rw [unsigned_to_chars_ge (by omega : 10 ≤ v), unsigned_to_chars_ge (by omega : 10 ≤ v / 10),
    unsigned_to_chars_ge (by omega : 10 ≤ v / 10 / 10),
    unsigned_to_chars_lt (by omega : v / 10 / 10 / 10 < 10)]
  have e0 : v / 10 / 10 / 10 % 10 = v / 10 / 10 / 10 := by omega
  simp [spec_fixedWidth, e0]

/-- The length of a number written without padding. -/
theorem fmt_number_one_length (v : Int) (k : Nat) (hk : 1 ≤ k) (h : v.natAbs < 10 ^ k) :
    (fmt_number 1 v).length ≤ k + 1 := by
  have hl := unsigned_to_chars_length v.natAbs k hk h
  have hpos : 1 ≤ (unsigned_to_chars v.natAbs).length := by
    have := (unsigned_to_chars_isDecimalOf v.natAbs).1
    rcases hu : unsigned_to_chars v.natAbs with _ | ⟨c, cs⟩
    · exact absurd hu this
    · simp
  unfold fmt_number
  simp only
  split_ifs
  · simp only [List.length_cons, List.length_append, List.length_replicate]
    omega
  · simp only [List.length_append, List.length_replicate]
    omega

/-- The text of the format for the fields of a date and a time of day. -/
theorem format_F_T_length (t : tm)
    (hs0 : 0 ≤ t.tm_sec) (hs1 : t.tm_sec < 60) (hm0 : 0 ≤ t.tm_min) (hm1 : t.tm_min < 60)
    (hh0 : 0 ≤ t.tm_hour) (hh1 : t.tm_hour < 24) (hd0 : 1 ≤ t.tm_mday) (hd1 : t.tm_mday ≤ 31)
    (hmo0 : 0 ≤ t.tm_mon) (hmo1 : t.tm_mon ≤ 11) :
    (format_F_T t).length = (fmt_number 1 (wrap32 (t.tm_year + 1900))).length + 16 := by
  unfold format_F_T
  rw [fmt_number_two _ hs0 (by omega), fmt_number_two _ hm0 (by omega),
    fmt_number_two _ hh0 (by omega), fmt_number_two _ (by omega : 0 ≤ t.tm_mday) (by omega),
    fmt_number_two (t.tm_mon + 1) (by omega) (by omega)]
  simp only [List.length_append, List.length_cons, spec_fixedWidth_length, List.length_nil]

theorem dimInt_le (y m : Int) : dimInt y m ≤ 31 := by
  unfold dimInt
  split_ifs <;> omega

theorem dbmInt_bounds (y m : Int) : 0 ≤ dbmInt y m ∧ dbmInt y m ≤ 335 := by
  unfold dbmInt
  have h1 : (0 : Int) ≤ (if leapInt y then 1 else 0) ∧
      (if leapInt y then (1 : Int) else 0) ≤ 1 := by
    split_ifs <;> decide
  generalize (if leapInt y then (1 : Int) else 0) = a at h1
  have h2 : (0 : Int) ≤ (if m = 3 then 59 else if m = 4 then 90 else if m = 5 then 120
      else if m = 6 then 151 else if m = 7 then 181 else if m = 8 then 212
      else if m = 9 then 243 else if m = 10 then 273 else if m = 11 then 304 else 334) ∧
      (if m = 3 then 59 else if m = 4 then 90 else if m = 5 then 120
      else if m = 6 then 151 else if m = 7 then 181 else if m = 8 then 212
      else if m = 9 then 243 else if m = 10 then 273 else if m = 11 then 304
      else (334 : Int)) ≤ 334 := by
    split_ifs <;> decide
  generalize (if m = 3 then 59 else if m = 4 then 90 else if m = 5 then 120
      else if m = 6 then 151 else if m = 7 then 181 else if m = 8 then 212
      else if m = 9 then 243 else if m = 10 then 273 else if m = 11 then 304
      else (334 : Int)) = b at h2
  split_ifs <;> omega

/-- Whenever `gmtime` succeeds, the formatted text fits the buffer of 30 bytes. -/
theorem strftime_of_gmtime (t : Int) (tmv : tm) (h : gmtime t = some tmv) :
    strftime 30 tmv = some (format_F_T tmv) := by
  obtain ⟨Y, M, D, hh, mi, sec, hM1, hM12, hD1, hD2, hh0, hh1, hmi0, hmi1, hs0, hs1, _, hg⟩ :=
    gmtime_civil t
  have hD31 := dimInt_le Y M
  rw [h] at hg
  split_ifs at hg with hr
  rw [Option.some.injEq] at hg
  unfold INT_MAX INT_MIN at hr
  have hlen := format_F_T_length tmv (by rw [hg]; exact hs0) (by rw [hg]; exact hs1)
    (by rw [hg]; exact hmi0) (by rw [hg]; exact hmi1) (by rw [hg]; exact hh0)
    (by rw [hg]; exact hh1) (by rw [hg]; exact hD1) (by rw [hg]; simp only; omega)
    (by rw [hg]; simp only; omega) (by rw [hg]; simp only; omega)
  have hy : (fmt_number 1 (wrap32 (tmv.tm_year + 1900))).length ≤ 10 + 1 := by
    apply fmt_number_one_length _ 10 (by decide)
    unfold wrap32
    omega
  unfold strftime
  rw [if_pos (by omega)]

/-! ### The formatters -/

/-- The formatter of pairs, when the break-down of the seconds succeeds. -/
theorem to_string_timespec_of_gmtime (s n : Int) (tmv : tm) (h : gmtime s = some tmv) :
    to_string_timespec { tv_sec := s, tv_nsec := n }
      = some (String.mk (format_F_T tmv ++ std_to_string n)) := by
  unfold to_string_timespec
  simp only [h, strftime_of_gmtime s tmv h, Option.bind_eq_bind, Option.some_bind,
    Option.pure_def]

/-- The formatter of instants renders the truncated seconds and the signed remainder. -/
theorem to_string_time_point_eq (tp : time_point) :
    to_string_time_point tp
      = to_string_timespec
          { tv_sec := duration_cast_seconds tp.count
            tv_nsec := tp.count - duration_cast_seconds tp.count * 1000000000 } := by
  rw [← timepoint2timespec_exact tp]
  rfl

/-- Claim C2. Cross-representation format equivalence: for every calendar instant `x`, the
`to_string` of the instant is the `to_string` of the pair `timepoint2timespec x`. -/
theorem C2_format_equivalence (x : time_point) :
    to_string_time_point x = to_string_timespec (timepoint2timespec x) := by
  rfl

/-- Claim C4 as stated fails: the pair `(-1, 500000000)`, half a second before the epoch,
renders as `1969-12-31 23:59:59.500000000`, the instant it denotes as
`1970-01-01 00:00:00.-500000000`. -/
theorem C4_counterexample :
    (0 : Int) ≤ 500000000 ∧ (500000000 : Int) < 1000000000 ∧
      inInt64 (-1 * 1000000000 + 500000000) ∧
      to_string_timespec { tv_sec := -1, tv_nsec := 500000000 }
        = some "1969-12-31 23:59:59.500000000" ∧
      to_string_time_point (timespec2timepoint { tv_sec := -1, tv_nsec := 500000000 })
        = some "1970-01-01 00:00:00.-500000000" ∧
      to_string_timespec { tv_sec := -1, tv_nsec := 500000000 }
        ≠ to_string_time_point (timespec2timepoint { tv_sec := -1, tv_nsec := 500000000 }) := by
  decide

/-- Claim C4, amended. For every pair `(s, n)` with `0 <= n < 10^9`, with `s >= 0` or
`n = 0`, and with `s * 10^9 + n` representable in 64 bits, the `to_string` of the pair equals
the `to_string` of `timespec2timepoint` of the pair. -/
theorem C4_pair_and_instant_agree (s n : Int) (hn0 : 0 ≤ n) (hn1 : n < 1000000000)
    (hs : 0 ≤ s ∨ n = 0) (h : inInt64 (s * 1000000000 + n)) :
    to_string_timespec { tv_sec := s, tv_nsec := n }
      = to_string_time_point (timespec2timepoint { tv_sec := s, tv_nsec := n }) := by
  rw [timespec2timepoint_exact s n h, to_string_time_point_eq]
  have hq : duration_cast_seconds (s * 1000000000 + n) = s := by
    rcases hs with hs | hs
    · exact duration_cast_seconds_pair hs hn0 hn1
    · subst hs
      rcases lt_or_le s 0 with hneg | hpos
      · rw [duration_cast_seconds_neg (by omega)]; omega
      · exact duration_cast_seconds_pair hpos hn0 hn1
  simp only [hq]
  congr 2
  ring

/-- Witness of the amended C4. -/
theorem C4_pair_and_instant_agree_witness :
    (0 : Int) ≤ 123000000 ∧ (123000000 : Int) < 1000000000 ∧
      ((0 : Int) ≤ 1700000000 ∨ (123000000 : Int) = 0) ∧
      inInt64 (1700000000 * 1000000000 + 123000000) ∧
      to_string_timespec { tv_sec := 1700000000, tv_nsec := 123000000 }
        = to_string_time_point
            (timespec2timepoint { tv_sec := 1700000000, tv_nsec := 123000000 }) :=
  ⟨by decide, by decide, by decide, by decide,
    C4_pair_and_instant_agree 1700000000 123000000 (by decide) (by decide) (by decide)
      (by decide)⟩

/-- Claim C5, the code at a failing input: when the clock returns
2023-11-14 22:13:20.000000005, the first line (the native rendering) has nine fractional
digits and the three `to_string` lines have one, so the four printed lines are not the same
string. -/
theorem C5_main_at_failing_input :
    main { count := 1700000000000000005 }
      = some ["2023-11-14 22:13:20.000000005", "2023-11-14 22:13:20.5",
          "2023-11-14 22:13:20.5", "2023-11-14 22:13:20.5"] := by
  decide

/-! ### The fractional part -/

/-- The year of the text wraps in `int`: the first second of the year 2147483648, which
`gmtime` still breaks down (`tm_year` is 2147481748), is written with the year
`-2147483648`. -/
theorem to_string_timespec_year_wraps :
    to_string_timespec { tv_sec := 67767976233532800, tv_nsec := 0 }
      = some "-2147483648-01-01 00:00:00.0" := by
  decide

/-- The text of the format ends in the point of the format string. -/
theorem format_F_T_snoc (t : tm) : ∃ pre : List Char, format_F_T t = pre ++ ['.'] :=
  ⟨_, rfl⟩

/-- Claim C8. Unpadded fractional part: for every pair `(s, n)` whose seconds are in the
calendar range (the break-down succeeds), `to_string` of the pair is the calendar prefix,
which ends in `'.'`, followed by the sign and the shortest decimal rendering of `n`, with no
zero padding; with `n = 5` the result ends in `".5"`, not in `".000000005"`. -/
theorem C8_unpadded_fraction (s n : Int) (tmv : tm) (hcal : gmtime s = some tmv) :
    to_string_timespec { tv_sec := s, tv_nsec := n }
      = some (String.mk (format_F_T tmv ++ std_to_string n)) ∧
    (format_F_T tmv).getLast? = some '.' ∧
    (∃ ds : List Char, std_to_string n = (if n < 0 then '-' :: ds else ds) ∧
      spec_isDecimalOf ds n.natAbs ∧
      ∀ cs : List Char, spec_isDecimalOf cs n.natAbs → ds.length ≤ cs.length) ∧
    (∃ str : String, to_string_timespec { tv_sec := s, tv_nsec := 5 } = some str ∧
      ".5".data <:+ str.data ∧ ¬ ".000000005".data <:+ str.data) := by
  refine ⟨to_string_timespec_of_gmtime s n tmv hcal, ?_, ?_, ?_⟩
  · obtain ⟨pre, hpre⟩ := format_F_T_snoc tmv
    rw [hpre]
    simp
  · refine ⟨unsigned_to_chars n.natAbs, ?_, unsigned_to_chars_isDecimalOf _,
      unsigned_to_chars_shortest _⟩
    unfold std_to_string
    rfl
  · refine ⟨_, to_string_timespec_of_gmtime s 5 tmv hcal, ?_, ?_⟩
    · have e : std_to_string 5 = ['5'] := by decide
      obtain ⟨pre, hpre⟩ := format_F_T_snoc tmv
      rw [e, hpre]
      exact ⟨pre, by simp⟩
    · have e : std_to_string 5 = ['5'] := by decide
      rw [e]
      intro hsuf
      obtain ⟨pre, hpre⟩ := format_F_T_snoc tmv
      rw [hpre] at hsuf
      have hrev := List.reverse_prefix.mpr hsuf
      simp at hrev

/-- Witness of C8. -/
theorem C8_unpadded_fraction_witness :
    gmtime 1700000000 = some ⟨20, 13, 22, 14, 10, 123⟩ ∧
      to_string_timespec { tv_sec := 1700000000, tv_nsec := 5 }
        = some (String.mk (format_F_T ⟨20, 13, 22, 14, 10, 123⟩ ++ std_to_string 5)) :=
  ⟨by decide, (C8_unpadded_fraction 1700000000 5 ⟨20, 13, 22, 14, 10, 123⟩ (by decide)).1⟩

/-! ### The calendar prefix -/

/-- The days before a year grow with the year. -/
theorem dbyInt_mono (a b : Int) (h : a ≤ b) : dbyInt a ≤ dbyInt b := by
  obtain ⟨n, rfl⟩ : ∃ n : Nat, b = a + n := ⟨(b - a).toNat, by omega⟩
  clear h
  induction n with
  | zero => simp
  | succ n ih =>
    have step : dbyInt (a + n) ≤ dbyInt (a + n + 1) := by
      unfold dbyInt
      omega
    have e : a + ((n + 1 : Nat) : Int) = a + n + 1 := by push_cast; ring
    rw [e]
    exact le_trans ih step

/-- A date of year `Y` lies before the first day of year `Y + 1`. -/
theorem dbyInt_succ_ge (Y M D : Int) (hM1 : 1 ≤ M) (hM12 : M ≤ 12) (hD : D ≤ dimInt Y M) :
    dbyInt Y + dbmInt Y M + D ≤ dbyInt (Y + 1) := by
  unfold dimInt at hD
  unfold dbyInt dbmInt
  have hm : M = 1 ∨ M = 2 ∨ M = 3 ∨ M = 4 ∨ M = 5 ∨ M = 6 ∨ M = 7 ∨ M = 8 ∨ M = 9 ∨
      M = 10 ∨ M = 11 ∨ M = 12 := by omega
  by_cases hl : leapInt Y
  · simp only [if_pos hl] at hD ⊢
    unfold leapInt at hl
    rcases hm with h | h | h | h | h | h | h | h | h | h | h | h <;> subst h <;>
      simp at hD ⊢ <;> omega
  · simp only [if_neg hl] at hD ⊢
    unfold leapInt at hl
    rcases hm with h | h | h | h | h | h | h | h | h | h | h | h <;> subst h <;>
      simp at hD ⊢ <;> omega

/-- The break-down of the seconds of the years 1970 to 9999, against the calendar of the
specification. -/
theorem gmtime_spec (s : Int) (h0 : 0 ≤ s) (h1 : s ≤ 253402300799) :
    ∃ Y M D h mi sec : Nat,
      1970 ≤ Y ∧ Y ≤ 9999 ∧ spec_validCivil Y M D h mi sec ∧
      spec_secondsSinceEpoch Y M D h mi sec = s ∧
      gmtime s = some
        { tm_sec := sec, tm_min := mi, tm_hour := h, tm_mday := D, tm_mon := (M : Int) - 1,
          tm_year := (Y : Int) - 1900 } := by
  obtain ⟨Y, M, D, hh, mi, sec, hM1, hM12, hD1, hD2, hh0, hh1, hmi0, hmi1, hs0, hs1, hsum,
    hg⟩ := gmtime_civil s
  have hD31 := dimInt_le Y M
  have hdbm := dbmInt_bounds Y M
  have hyear := dbyInt_succ_ge Y M D hM1 hM12 hD2
  have hY : 1970 ≤ Y ∧ Y ≤ 9999 := by
    constructor
    · by_contra hlt
      have hmono := dbyInt_mono (Y + 1) 1970 (by omega)
      have e : dbyInt 1970 = 719528 := by decide
      rw [e] at hmono
      generalize dbyInt (Y + 1) = u at hmono hyear
      generalize dbyInt Y = v at hsum hyear
      generalize dbmInt Y M = b at hsum hdbm hyear
      omega
    · by_contra hgt
      have hmono := dbyInt_mono 10000 Y (by omega)
      have e : dbyInt 10000 = 3652425 := by decide
      rw [e] at hmono
      generalize dbyInt Y = v at hsum hmono
      generalize dbmInt Y M = b at hsum hdbm
      omega
  lift Y to ℕ using (by omega)
  lift M to ℕ using (by omega)
  lift D to ℕ using (by omega)
  lift hh to ℕ using hh0
  lift mi to ℕ using hmi0
  lift sec to ℕ using hs0
  have hM1n : 1 ≤ M := by exact_mod_cast hM1
  have hM12n : M ≤ 12 := by exact_mod_cast hM12
  refine ⟨Y, M, D, hh, mi, sec, by omega, by omega, ?_, ?_, ?_⟩
  · rw [← spec_daysInMonth_closed Y M hM1n hM12n] at hD2
    unfold spec_validCivil
    refine ⟨hM1n, hM12n, by omega, by exact_mod_cast hD2, by omega, by omega, by omega⟩
  · rw [spec_secondsSinceEpoch_closed Y M D hh mi sec hM1n hM12n]
    exact hsum
  · rw [hg, if_neg]
    unfold INT_MAX INT_MIN
    omega

/-- The text of the format, for the fields of a date of the years 1000 to 9999. -/
theorem format_F_T_spec (Y M D h mi sec : Nat) (hY0 : 1000 ≤ Y) (hY1 : Y ≤ 9999)
    (hv : spec_validCivil Y M D h mi sec) :
    format_F_T ⟨sec, mi, h, D, (M : Int) - 1, (Y : Int) - 1900⟩
      = spec_calendarText Y M D h mi sec := by
  obtain ⟨hM1, hM12, hD1, hD2, hh, hmi, hsec⟩ := hv
  have hD31 : D ≤ 31 := by
    have := dimInt_le Y M
    rw [← spec_daysInMonth_closed Y M hM1 hM12] at this
    have : spec_daysInMonth Y M ≤ 31 := by exact_mod_cast this
    omega
  unfold format_F_T spec_calendarText
  simp only
  have e1 : wrap32 ((Y : Int) - 1900 + 1900) = Y := by
    unfold wrap32
    omega
  have e2 : (M : Int) - 1 + 1 = M := by ring
  rw [e1, e2, fmt_number_year _ (by omega) (by omega), fmt_number_two (M : Int) (by omega) (by omega),
    fmt_number_two (D : Int) (by omega) (by omega), fmt_number_two (h : Int) (by omega) (by omega),
    fmt_number_two (mi : Int) (by omega) (by omega),
    fmt_number_two (sec : Int) (by omega) (by omega)]
  simp only [Int.toNat_ofNat]

theorem spec_calendarText_length (Y M D h mi sec : Nat) :
    (spec_calendarText Y M D h mi sec).length = 20 := by
  unfold spec_calendarText
  simp only [List.length_append, List.length_cons, spec_fixedWidth_length, List.length_nil]

/-- Claim C9. Calendar prefix correctness: for every pair `(s, n)` with `s` in the years 1970
to 9999 (from `1970-01-01 00:00:00`, second `0`, to `9999-12-31 23:59:59`, second
`253402300799`), the first 20 characters of `to_string` of the pair are
`YYYY-MM-DD HH:MM:SS.` for the date and time of the proleptic Gregorian calendar that lie
`s` seconds after `1970-01-01T00:00:00`, no zone offset applied; `(0, 0)` yields
`1970-01-01 00:00:00.0` and `(1700000000, 123000000)` yields
`2023-11-14 22:13:20.123000000`. -/
theorem C9_calendar_text (s n : Int) (h0 : 0 ≤ s) (h1 : s ≤ 253402300799) :
    (∃ Y M D h mi sec : Nat,
      1970 ≤ Y ∧ Y ≤ 9999 ∧ spec_validCivil Y M D h mi sec ∧
      spec_secondsSinceEpoch Y M D h mi sec = s ∧
      ∃ str : String, to_string_timespec { tv_sec := s, tv_nsec := n } = some str ∧
        str.data.take 20 = spec_calendarText Y M D h mi sec) ∧
    spec_secondsSinceEpoch 1970 1 1 0 0 0 = 0 ∧
    spec_secondsSinceEpoch 9999 12 31 23 59 59 = 253402300799 ∧
    to_string_timespec { tv_sec := 0, tv_nsec := 0 } = some "1970-01-01 00:00:00.0" ∧
    to_string_timespec { tv_sec := 1700000000, tv_nsec := 123000000 }
      = some "2023-11-14 22:13:20.123000000" := by
  refine ⟨?_, ?_, ?_, by decide, by decide⟩
  · obtain ⟨Y, M, D, h, mi, sec, hY0, hY1, hv, hsec, hg⟩ := gmtime_spec s h0 h1
    refine ⟨Y, M, D, h, mi, sec, hY0, hY1, hv, hsec, _,
      to_string_timespec_of_gmtime s n _ hg, ?_⟩
    rw [format_F_T_spec Y M D h mi sec (by omega) hY1 hv]
    exact List.take_left' (spec_calendarText_length Y M D h mi sec)
  · rw [spec_secondsSinceEpoch_closed _ _ _ _ _ _ (by decide) (by decide)]
    decide
  · rw [spec_secondsSinceEpoch_closed _ _ _ _ _ _ (by decide) (by decide)]
    decide

/-- Witness of C9 at the second scenario of the specification. -/
theorem C9_calendar_text_witness :
    (0 : Int) ≤ 1700000000 ∧ (1700000000 : Int) ≤ 253402300799 ∧
      to_string_timespec { tv_sec := 1700000000, tv_nsec := 123000000 }
        = some "2023-11-14 22:13:20.123000000" :=
  ⟨by decide, by decide,
    (C9_calendar_text 1700000000 123000000 (by decide) (by decide)).2.2.2.2⟩

/-! ### The range of a 64-bit instant -/

/-- The whole seconds of a signed 64-bit count of nanoseconds. -/
theorem to_time_t_range (x : time_point) (hx : inInt64 x.count) :
    -9223372036 ≤ to_time_t x ∧ to_time_t x ≤ 9223372036 := by
  unfold inInt64 INT64_MIN INT64_MAX at hx
  unfold to_time_t
  rcases lt_or_le x.count 0 with hc | hc
  · rw [duration_cast_seconds_neg hc]
    omega
  · rw [duration_cast_seconds_nonneg hc]
    omega

/-- The break-down of the seconds that a 64-bit count of nanoseconds can hold, against the
calendar of the specification: the years are 1677 to 2262. -/
theorem gmtime_spec_int64 (s : Int) (h0 : -9223372036 ≤ s) (h1 : s ≤ 9223372036) :
    ∃ Y M D h mi sec : Nat,
      1677 ≤ Y ∧ Y ≤ 2262 ∧ spec_validCivil Y M D h mi sec ∧
      spec_secondsSinceEpoch Y M D h mi sec = s ∧
      gmtime s = some
        { tm_sec := sec, tm_min := mi, tm_hour := h, tm_mday := D, tm_mon := (M : Int) - 1,
          tm_year := (Y : Int) - 1900 } := by
  obtain ⟨Y, M, D, hh, mi, sec, hM1, hM12, hD1, hD2, hh0, hh1, hmi0, hmi1, hs0, hs1, hsum,
    hg⟩ := gmtime_civil s
  have hD31 := dimInt_le Y M
  have hdbm := dbmInt_bounds Y M
  have hyear := dbyInt_succ_ge Y M D hM1 hM12 hD2
  have hY : 1677 ≤ Y ∧ Y ≤ 2262 := by
    constructor
    · by_contra hlt
      have hmono := dbyInt_mono (Y + 1) 1677 (by omega)
      have e : dbyInt 1677 = 612513 := by decide
      rw [e] at hmono
      generalize dbyInt (Y + 1) = u at hmono hyear
      generalize dbyInt Y = v at hsum hyear
      generalize dbmInt Y M = b at hsum hdbm hyear
      omega
    · by_contra hgt
      have hmono := dbyInt_mono 2263 Y (by omega)
      have e : dbyInt 2263 = 826544 := by decide
      rw [e] at hmono
      generalize dbyInt Y = v at hsum hmono
      generalize dbmInt Y M = b at hsum hdbm
      omega
  lift Y to ℕ using (by omega)
  lift M to ℕ using (by omega)
  lift D to ℕ using (by omega)
  lift hh to ℕ using hh0
  lift mi to ℕ using hmi0
  lift sec to ℕ using hs0
  have hM1n : 1 ≤ M := by exact_mod_cast hM1
  have hM12n : M ≤ 12 := by exact_mod_cast hM12
  refine ⟨Y, M, D, hh, mi, sec, by omega, by omega, ?_, ?_, ?_⟩
  · rw [← spec_daysInMonth_closed Y M hM1n hM12n] at hD2
    unfold spec_validCivil
    refine ⟨hM1n, hM12n, by omega, by exact_mod_cast hD2, by omega, by omega, by omega⟩
  · rw [spec_secondsSinceEpoch_closed Y M D hh mi sec hM1n hM12n]
    exact hsum
  · rw [hg, if_neg]
    unfold INT_MAX INT_MIN
    omega

/-- Claim C11. Formatting a calendar instant never reaches the error branch: for every
signed 64-bit nanosecond instant `x`, the whole seconds passed to the calendar break-down in
`to_string x` are a date and time of the years 1677 to 2262, so the break-down is defined
(no null pointer), the formatted prefix `YYYY-MM-DD HH:MM:SS.` has 20 characters and fits
the 30-byte buffer with its terminator, and `to_string x` returns a string that starts with
that prefix. -/
theorem C11_no_error_branch (x : time_point) (hx : inInt64 x.count) :
    ∃ Y M D h mi sec : Nat,
      1677 ≤ Y ∧ Y ≤ 2262 ∧ spec_validCivil Y M D h mi sec ∧
      spec_secondsSinceEpoch Y M D h mi sec = to_time_t x ∧
      ∃ tmv : tm, gmtime (to_time_t x) = some tmv ∧
        format_F_T tmv = spec_calendarText Y M D h mi sec ∧
        (format_F_T tmv).length = 20 ∧ (format_F_T tmv).length + 1 ≤ 30 ∧
        strftime 30 tmv = some (format_F_T tmv) ∧
        ∃ str : String, to_string_time_point x = some str ∧
          str.data.take 20 = format_F_T tmv := by
  obtain ⟨hlo, hhi⟩ := to_time_t_range x hx
  obtain ⟨Y, M, D, h, mi, sec, hY0, hY1, hv, hsec, hg⟩ :=
    gmtime_spec_int64 (to_time_t x) hlo hhi
  have htext := format_F_T_spec Y M D h mi sec (by omega) (by omega) hv
  have hlen : (format_F_T ⟨sec, mi, h, D, (M : Int) - 1, (Y : Int) - 1900⟩).length = 20 := by
    rw [htext]; exact spec_calendarText_length Y M D h mi sec
  have hstr : to_string_time_point x
      = some (String.mk (format_F_T ⟨sec, mi, h, D, (M : Int) - 1, (Y : Int) - 1900⟩
          ++ std_to_string (subsecond_nanoseconds x))) :=
    to_string_timespec_of_gmtime (to_time_t x) (subsecond_nanoseconds x) _ hg
  exact ⟨Y, M, D, h, mi, sec, hY0, hY1, hv, hsec, _, hg, htext, hlen, by omega,
    strftime_of_gmtime _ _ hg, _, hstr, List.take_left' hlen⟩

/-- Witness of C11 at the smallest 64-bit instant. -/
theorem C11_no_error_branch_witness :
    inInt64 (-9223372036854775808) ∧
      to_string_time_point { count := -9223372036854775808 }
        = some "1677-09-21 00:12:44.-854775808" ∧
      to_string_time_point { count := 9223372036854775807 }
        = some "2262-04-11 23:47:16.854775807" ∧
      ∃ Y M D h mi sec : Nat,
        1677 ≤ Y ∧ Y ≤ 2262 ∧ spec_validCivil Y M D h mi sec ∧
        spec_secondsSinceEpoch Y M D h mi sec = to_time_t { count := -9223372036854775808 } :=
  ⟨by decide, by decide, by decide,
    (C11_no_error_branch { count := -9223372036854775808 } (by decide)).imp
      fun _ hY => hY.imp fun _ hM => hM.imp fun _ hD => hD.imp fun _ hh => hh.imp
        fun _ hmi => hmi.imp fun _ hs => ⟨hs.1, hs.2.1, hs.2.2.1, hs.2.2.2.1⟩⟩

/-! ### No overflow on the round trip -/

/-- Claim C12. No overflow on the round trip: for every signed 64-bit nanosecond instant
`x`, the values computed by `timepoint2timespec x` and then by `timespec2timepoint` of its
result (the truncated seconds, the seconds scaled back to nanoseconds, the difference of `x`
and the scaled seconds, the stored seconds scaled again, and the sum of scaled seconds and
nanoseconds) are all within the signed 64-bit range before any reduction, so no step wraps
and the result is exactly `x`. -/
theorem C12_no_overflow (x : time_point) (hx : inInt64 x.count) :
    inInt64 (time_point_cast_seconds x) ∧
    inInt64 (time_point_cast_seconds x * NANOS_PER_SEC) ∧
    seconds_to_nanoseconds (time_point_cast_seconds x)
      = time_point_cast_seconds x * NANOS_PER_SEC ∧
    inInt64 (x.count - seconds_to_nanoseconds (time_point_cast_seconds x)) ∧
    (timepoint2timespec x).tv_nsec
      = x.count - time_point_cast_seconds x * NANOS_PER_SEC ∧
    inInt64 ((timepoint2timespec x).tv_sec * NANOS_PER_SEC) ∧
    inInt64 (seconds_to_nanoseconds (timepoint2timespec x).tv_sec
      + (timepoint2timespec x).tv_nsec) ∧
    (timespec2timepoint (timepoint2timespec x)).count
      = (timepoint2timespec x).tv_sec * NANOS_PER_SEC + (timepoint2timespec x).tv_nsec ∧
    (timespec2timepoint (timepoint2timespec x)).count = x.count := by
  have hx2 := hx
  unfold inInt64 INT64_MIN INT64_MAX at hx2
  have hq : inInt64 (duration_cast_seconds x.count) ∧
      inInt64 (duration_cast_seconds x.count * 1000000000) ∧
      inInt64 (x.count - duration_cast_seconds x.count * 1000000000) := by
    unfold inInt64 INT64_MIN INT64_MAX
    rcases lt_or_le x.count 0 with hc | hc
    · have := duration_cast_seconds_bounds_neg hc
      omega
    · have := duration_cast_seconds_bounds_nonneg hc
      omega
  obtain ⟨hq1, hq2, hq3⟩ := hq
  have hw : seconds_to_nanoseconds (duration_cast_seconds x.count)
      = duration_cast_seconds x.count * 1000000000 := by
    unfold seconds_to_nanoseconds NANOS_PER_SEC
    exact wrap64_of_inInt64 hq2
  have hsum : duration_cast_seconds x.count * 1000000000 +
      (x.count - duration_cast_seconds x.count * 1000000000) = x.count := by ring
  rw [timepoint2timespec_exact x]
  unfold time_point_cast_seconds
  simp only [hw]
  unfold NANOS_PER_SEC
  refine ⟨hq1, hq2, rfl, hq3, rfl, hq2, ?_, ?_, ?_⟩
  · rw [hsum]; exact hx
  · rw [timespec2timepoint_exact _ _ (by rw [hsum]; exact hx)]
  · rw [timespec2timepoint_exact _ _ (by rw [hsum]; exact hx), hsum]

/-- Witness of C12 at the smallest 64-bit instant. -/
theorem C12_no_overflow_witness :
    inInt64 (-9223372036854775808) ∧
      (timespec2timepoint (timepoint2timespec { count := -9223372036854775808 })).count
        = -9223372036854775808 :=
  ⟨by decide,
    (C12_no_overflow { count := -9223372036854775808 } (by decide)).2.2.2.2.2.2.2.2⟩

/-! ### The text determines the pair -/

/-- A fixed-width field denotes its value modulo the width. -/
theorem spec_decimalValue_fixedWidth (w : Nat) : ∀ n : Nat,
    spec_decimalValue (spec_fixedWidth w n) = n % 10 ^ w := by
  induction w with
  | zero => intro n; simp [spec_fixedWidth, spec_decimalValue, Nat.mod_one]
  | succ w ih =>
    intro n
    rw [spec_fixedWidth, spec_decimalValue_snoc, ih, digitChar_toNat (Nat.mod_lt _ (by decide))]
    have e : 10 ^ (w + 1) = 10 * 10 ^ w := by rw [pow_succ]; ring
    rw [e, Nat.mod_mul]
    omega

theorem spec_fixedWidth_inj (w a b : Nat) (ha : a < 10 ^ w) (hb : b < 10 ^ w)
    (h : spec_fixedWidth w a = spec_fixedWidth w b) : a = b := by
  have e := congrArg spec_decimalValue h
  rw [spec_decimalValue_fixedWidth, spec_decimalValue_fixedWidth, Nat.mod_eq_of_lt ha,
    Nat.mod_eq_of_lt hb] at e
  exact e

/-- The calendar text determines its fields. -/
theorem spec_calendarText_inj (Y M D h mi s Y2 M2 D2 h2 mi2 s2 : Nat)
    (hY : Y < 10000) (hM : M < 100) (hD : D < 100) (hh : h < 100) (hmi : mi < 100)
    (hs : s < 100) (hY2 : Y2 < 10000) (hM2 : M2 < 100) (hD2 : D2 < 100) (hh2 : h2 < 100)
    (hmi2 : mi2 < 100) (hs2 : s2 < 100)
    (e : spec_calendarText Y M D h mi s = spec_calendarText Y2 M2 D2 h2 mi2 s2) :
    Y = Y2 ∧ M = M2 ∧ D = D2 ∧ h = h2 ∧ mi = mi2 ∧ s = s2 := by
  unfold spec_calendarText at e
  obtain ⟨e, -⟩ := List.append_inj' e rfl
  obtain ⟨e, es⟩ := List.append_inj' e
    (by simp only [List.length_cons, spec_fixedWidth_length])
  obtain ⟨e, emi⟩ := List.append_inj' e
    (by simp only [List.length_cons, spec_fixedWidth_length])
  obtain ⟨e, eh⟩ := List.append_inj' e
    (by simp only [List.length_cons, spec_fixedWidth_length])
  obtain ⟨e, eD⟩ := List.append_inj' e
    (by simp only [List.length_cons, spec_fixedWidth_length])
  obtain ⟨eY, eM⟩ := List.append_inj' e
    (by simp only [List.length_cons, spec_fixedWidth_length])
  exact ⟨spec_fixedWidth_inj 4 Y Y2 hY hY2 eY,
    spec_fixedWidth_inj 2 M M2 hM hM2 (List.cons_injective eM),
    spec_fixedWidth_inj 2 D D2 hD hD2 (List.cons_injective eD),
    spec_fixedWidth_inj 2 h h2 hh hh2 (List.cons_injective eh),
    spec_fixedWidth_inj 2 mi mi2 hmi hmi2 (List.cons_injective emi),
    spec_fixedWidth_inj 2 s s2 hs hs2 (List.cons_injective es)⟩

/-- The rendering of a non-negative number determines the number. -/
theorem std_to_string_inj_nonneg (a b : Int) (ha : 0 ≤ a) (hb : 0 ≤ b)
    (h : std_to_string a = std_to_string b) : a = b := by
  unfold std_to_string at h
  rw [if_neg (by omega), if_neg (by omega)] at h
  have e := congrArg spec_decimalValue h
  rw [(unsigned_to_chars_isDecimalOf a.natAbs).2.2,
    (unsigned_to_chars_isDecimalOf b.natAbs).2.2] at e
  omega

/-- The bounds of the fields of a date and time of the years up to 9999. -/
theorem spec_validCivil_bounds (Y M D h mi s : Nat) (hv : spec_validCivil Y M D h mi s) :
    M < 100 ∧ D < 100 ∧ h < 100 ∧ mi < 100 ∧ s < 100 := by
  obtain ⟨hM1, hM12, hD1, hD2, hh, hmi, hsec⟩ := hv
  have hD31 : D ≤ 31 := by
    have := dimInt_le Y M
    rw [← spec_daysInMonth_closed Y M hM1 hM12] at this
    have : spec_daysInMonth Y M ≤ 31 := by exact_mod_cast this
    omega
  omega

/-- Claim C13. Textual comparison is a sound equality check: for all pairs `(s1, n1)` and
`(s2, n2)` with nanoseconds in `[0, 10^9)` and seconds within the years 1970 to 9999, if
`to_string (s1, n1) = to_string (s2, n2)` then `s1 = s2` and `n1 = n2`. -/
theorem C13_to_string_injective (s1 n1 s2 n2 : Int)
    (hn1 : 0 ≤ n1 ∧ n1 < 1000000000) (hn2 : 0 ≤ n2 ∧ n2 < 1000000000)
    (hs1 : 0 ≤ s1 ∧ s1 ≤ 253402300799) (hs2 : 0 ≤ s2 ∧ s2 ≤ 253402300799)
    (h : to_string_timespec { tv_sec := s1, tv_nsec := n1 }
      = to_string_timespec { tv_sec := s2, tv_nsec := n2 }) :
    s1 = s2 ∧ n1 = n2 := by
  obtain ⟨Y, M, D, hh, mi, sec, _, hY1, hv, hsec, hg⟩ := gmtime_spec s1 hs1.1 hs1.2
  obtain ⟨Y2, M2, D2, hh2, mi2, sec2, _, hY2, hv2, hsec2, hg2⟩ := gmtime_spec s2 hs2.1 hs2.2
  rw [to_string_timespec_of_gmtime s1 n1 _ hg, to_string_timespec_of_gmtime s2 n2 _ hg2,
    format_F_T_spec Y M D hh mi sec (by omega) hY1 hv,
    format_F_T_spec Y2 M2 D2 hh2 mi2 sec2 (by omega) hY2 hv2] at h
  have hl : spec_calendarText Y M D hh mi sec ++ std_to_string n1
      = spec_calendarText Y2 M2 D2 hh2 mi2 sec2 ++ std_to_string n2 :=
    congrArg String.data (Option.some.inj h)
  obtain ⟨htext, hfrac⟩ := List.append_inj hl
    (by rw [spec_calendarText_length, spec_calendarText_length])
  obtain ⟨hM, hD, hH, hMi, hS⟩ := spec_validCivil_bounds Y M D hh mi sec hv
  obtain ⟨hM', hD', hH', hMi', hS'⟩ := spec_validCivil_bounds Y2 M2 D2 hh2 mi2 sec2 hv2
  obtain ⟨eY, eM, eD, eh, emi, es⟩ := spec_calendarText_inj Y M D hh mi sec Y2 M2 D2 hh2 mi2
    sec2 (by omega) hM hD hH hMi hS (by omega) hM' hD' hH' hMi' hS' htext
  constructor
  · rw [← hsec, ← hsec2, eY, eM, eD, eh, emi, es]
  · exact std_to_string_inj_nonneg n1 n2 hn1.1 hn2.1 hfrac

/-- Witness of C13: two equal pairs at the second scenario of the specification. -/
theorem C13_to_string_injective_witness :
    ((0 : Int) ≤ 123000000 ∧ (123000000 : Int) < 1000000000) ∧
      ((0 : Int) ≤ 1700000000 ∧ (1700000000 : Int) ≤ 253402300799) ∧
      to_string_timespec { tv_sec := 1700000000, tv_nsec := 123000000 }
        = to_string_timespec { tv_sec := 1700000000, tv_nsec := 123000000 } ∧
      ((1700000000 : Int) = 1700000000 ∧ (123000000 : Int) = 123000000) :=
  ⟨by decide, by decide, rfl,
    C13_to_string_injective 1700000000 123000000 1700000000 123000000 (by decide) (by decide)
      (by decide) (by decide) rfl⟩

end TimePointNotes
